import Mathlib

/- Verification of codes/data/audio/nv_tacotron_dataset.py.

   The source is shallowly embedded: tensors become lists (mel spectrograms
   as channel-major lists of rows of rational values, token sequences as
   lists of integers), torch index/slice assignments become list
   constructions with explicit Python slice semantics, and external
   collaborators (the torch area interpolation, the STFT transform, the
   lj-format parser and the Mersenne-Twister generator behind the random
   module) are either parameters of the embedded functions or concrete
   deterministic stand-ins, as noted at each definition. -/

namespace NvTacotron

/- Part 1: the batch collator TextMelCollate.__call__ (source lines 138-190). -/

/-- One element of the list handed to the collator, i.e. the output of
TextMelLoader.get_mel_text_pair: token sequence, mel spectrogram
(list of channel rows, each row a list of frame values), filename. -/
structure CollateItem where
  text : List Int
  mel : List (List Rat)
  fname : String
deriving DecidableEq

instance : Inhabited CollateItem := ⟨⟨[], [], ""⟩⟩

/-- Default item used for out-of-range list reads (never reached in bounds). -/
def dIt : CollateItem := ⟨[], [], ""⟩

/-- Frame count of a mel array, i.e. mel.size(1), the length of the last
tensor dimension (rows are rectangular in any well-formed tensor). -/
def melFrames (m : List (List Rat)) : Nat := (m.headD []).length

/-- Left-aligned copy of a sequence into a zero-initialised buffer of width
len, i.e. buf.zero_(); buf[:l.length] = l. -/
def padTo (l : List α) (len : Nat) (z : α) : List α :=
  l ++ List.replicate (len - l.length) z

/-- Effective start position of the Python slice x[s:] over length len:
a negative s counts from the end, clamped at 0; a nonnegative s is clamped
at len. -/
def pySliceStart (s : Int) (len : Nat) : Nat :=
  if s < 0 then ((len : Int) + s).toNat else min s.toNat len

/-- Row i of gate_padded: a zero row of width maxT after the assignment
gate_padded[i, melLen - 1 :] = 1 (source line 180), with Python slice
semantics for the start index. -/
def gateRow (melLen maxT : Nat) : List Rat :=
  (List.range maxT).map (fun j => if pySliceStart ((melLen : Int) - 1) maxT ≤ j then 1 else 0)

/-- Insert index i into a list of indices kept in descending key order,
after every index of key at least key i. -/
def insIdx (key : Nat → Nat) (i : Nat) : List Nat → List Nat
  | [] => [i]
  | j :: rest => if key j < key i then i :: j :: rest else j :: insIdx key i rest

/-- Descending insertion sort of a list of indices by key.  This models
torch.sort(..., descending=True) on the length tensor (source lines
151-153): the returned index list is a permutation of the input positions
whose keys are in descending order. -/
def sortIdx (key : Nat → Nat) : List Nat → List Nat
  | [] => []
  | i :: rest => insIdx key i (sortIdx key rest)

/-- Token length of batch element i, i.e. len(batch[i][0]). -/
def textLenAt (batch : List CollateItem) (i : Nat) : Nat :=
  (batch.getD i dIt).text.length

/-- ids_sorted_decreasing: the batch positions sorted by descending token
length. -/
def sortedIds (batch : List CollateItem) : List Nat :=
  sortIdx (textLenAt batch) (List.range batch.length)

/-- max_input_len = input_lengths[0] (source line 154). -/
def maxInputLen (batch : List CollateItem) : Nat :=
  ((sortedIds batch).map (textLenAt batch)).headD 0

/-- max([x[1].size(1) for x in batch]) (source line 166); the Python max of
an empty batch would raise, the model returns 0. -/
def maxMelFrames (batch : List CollateItem) : Nat :=
  (batch.map (fun it => melFrames it.mel)).foldr max 0

/-- max_target_len after rounding up to the next multiple of
n_frames_per_step (source lines 166-169). -/
def maxTargetLen (n : Nat) (batch : List CollateItem) : Nat :=
  if maxMelFrames batch % n ≠ 0 then
    maxMelFrames batch + (n - maxMelFrames batch % n)
  else maxMelFrames batch

/-- The dictionary returned by TextMelCollate.__call__ (source lines
183-190). -/
structure Batch where
  padded_text : List (List Int)
  input_lengths : List Nat
  padded_mel : List (List (List Rat))
  padded_gate : List (List Rat)
  output_lengths : List Nat
  filenames : List String
deriving DecidableEq

/-- TextMelCollate.__call__ (source lines 144-190).  Each output row is
built for the reordered sample batch[ids[i]]: the token row is the token
sequence left-aligned in a zero row of width max_input_len; the mel entry
keeps the channel rows of the sample, each left-aligned in a zero row of
width max_target_len (the torch buffer has batch[0].mel.length channels;
the write at line 179 requires every sample to carry that same channel
count, so the per-sample rows coincide with the buffer rows); the gate row
follows gateRow; output_lengths records the pre-padding frame count. -/
def textMelCollate (n : Nat) (batch : List CollateItem) : Batch :=
  let ids := sortedIds batch
  let maxT := maxTargetLen n batch
  { padded_text := ids.map (fun k => padTo (batch.getD k dIt).text (maxInputLen batch) 0)
    input_lengths := ids.map (textLenAt batch)
    padded_mel := ids.map (fun k => ((batch.getD k dIt).mel).map (fun row => padTo row maxT 0))
    padded_gate := ids.map (fun k => gateRow (melFrames (batch.getD k dIt).mel) maxT)
    output_lengths := ids.map (fun k => melFrames (batch.getD k dIt).mel)
    filenames := ids.map (fun k => (batch.getD k dIt).fname) }

/- Helper lemmas about the sorting, max and padding combinators. -/

theorem insIdx_perm (key : Nat → Nat) (i : Nat) (l : List Nat) :
    (insIdx key i l).Perm (i :: l) := by
  induction l with
  | nil => exact List.Perm.refl _
  | cons j rest ih =>
    unfold insIdx
    by_cases h : key j < key i
    · rw [if_pos h]
    · rw [if_neg h]
      exact (ih.cons j).trans (List.Perm.swap i j rest)

theorem sortIdx_perm (key : Nat → Nat) (l : List Nat) : (sortIdx key l).Perm l := by
  induction l with
  | nil => exact List.Perm.refl _
  | cons i rest ih =>
    exact (insIdx_perm key i (sortIdx key rest)).trans (ih.cons i)

theorem mem_insIdx {key : Nat → Nat} {i a : Nat} {l : List Nat} :
    a ∈ insIdx key i l ↔ a = i ∨ a ∈ l := by
  rw [(insIdx_perm key i l).mem_iff, List.mem_cons]

theorem insIdx_pairwise {key : Nat → Nat} {i : Nat} {l : List Nat}
    (h : l.Pairwise (fun a b => key b ≤ key a)) :
    (insIdx key i l).Pairwise (fun a b => key b ≤ key a) := by
  induction l with
  | nil => simp [insIdx]
  | cons j rest ih =>
    rw [List.pairwise_cons] at h
    obtain ⟨h1, h2⟩ := h
    unfold insIdx
    by_cases hlt : key j < key i
    · rw [if_pos hlt]
      refine List.Pairwise.cons ?_ (List.Pairwise.cons h1 h2)
      intro b hb
      rcases List.mem_cons.mp hb with hb | hb
      · subst hb; exact Nat.le_of_lt hlt
      · exact Nat.le_trans (h1 b hb) (Nat.le_of_lt hlt)
    · rw [if_neg hlt]
      refine List.Pairwise.cons ?_ (ih h2)
      intro b hb
      rcases mem_insIdx.mp hb with hb | hb
      · subst hb; exact Nat.le_of_not_lt hlt
      · exact h1 b hb

theorem sortIdx_pairwise (key : Nat → Nat) (l : List Nat) :
    (sortIdx key l).Pairwise (fun a b => key b ≤ key a) := by
  induction l with
  | nil => simp [sortIdx]
  | cons i rest ih => exact insIdx_pairwise ih

theorem sortedIds_perm_range (batch : List CollateItem) :
    (sortedIds batch).Perm (List.range batch.length) :=
  sortIdx_perm _ _

theorem sortedIds_length (batch : List CollateItem) :
    (sortedIds batch).length = batch.length :=
  (sortedIds_perm_range batch).length_eq.trans (List.length_range _)

theorem sortedIds_lt {batch : List CollateItem} {k : Nat} (h : k ∈ sortedIds batch) :
    k < batch.length := by
  have := (sortedIds_perm_range batch).mem_iff.mp h
  simpa [List.mem_range] using this

theorem getD_map_eq (f : α → β) (l : List α) (i : Nat) (hi : i < l.length) (d : α) (d2 : β) :
    (l.map f).getD i d2 = f (l.getD i d) := by
  rw [List.getD_eq_getElem _ _ (by simpa using hi), List.getD_eq_getElem _ _ hi]
  simp

theorem le_foldr_max {x : Nat} {l : List Nat} (h : x ∈ l) : x ≤ l.foldr max 0 := by
  induction l with
  | nil => cases h
  | cons a t ih =>
    rcases List.mem_cons.mp h with h | h
    · subst h; exact Nat.le_max_left _ _
    · exact Nat.le_trans (ih h) (Nat.le_max_right _ _)

theorem foldr_max_le {l : List Nat} {m : Nat} (h : ∀ x ∈ l, x ≤ m) : l.foldr max 0 ≤ m := by
  induction l with
  | nil => exact Nat.zero_le m
  | cons a t ih =>
    exact Nat.max_le.mpr ⟨h a (List.mem_cons_self a t), ih (fun x hx => h x (List.mem_cons_of_mem a hx))⟩

theorem foldr_max_perm {l1 l2 : List Nat} (h : l1.Perm l2) :
    l1.foldr max 0 = l2.foldr max 0 :=
  Nat.le_antisymm
    (foldr_max_le (fun _ hx => le_foldr_max (h.mem_iff.mp hx)))
    (foldr_max_le (fun _ hx => le_foldr_max (h.mem_iff.mpr hx)))

theorem melFrames_le_maxMelFrames {batch : List CollateItem} {it : CollateItem}
    (h : it ∈ batch) : melFrames it.mel ≤ maxMelFrames batch :=
  le_foldr_max (List.mem_map_of_mem _ h)

theorem maxMelFrames_le_maxTargetLen (n : Nat) (batch : List CollateItem) :
    maxMelFrames batch ≤ maxTargetLen n batch := by
  unfold maxTargetLen
  split <;> omega

theorem maxTargetLen_mod (n : Nat) (batch : List CollateItem) (hn : 0 < n) :
    maxTargetLen n batch % n = 0 := by
  unfold maxTargetLen
  set m := maxMelFrames batch with hm
  have hd := Nat.div_add_mod m n
  have h1 : m % n < n := Nat.mod_lt _ hn
  by_cases hmz : m % n = 0
  · rw [if_neg (by omega)]; exact hmz
  · rw [if_pos (by omega)]
    have he : m + (n - m % n) = n * (m / n + 1) := by
      rw [Nat.mul_add, Nat.mul_one]; omega
    rw [he, Nat.mul_mod_right]

theorem maxTargetLen_lt (n : Nat) (batch : List CollateItem) (hn : 0 < n) :
    maxTargetLen n batch < maxMelFrames batch + n := by
  unfold maxTargetLen
  have h1 : maxMelFrames batch % n < n := Nat.mod_lt _ hn
  split <;> omega

theorem pySliceStart_pred {ml maxT : Nat} (hml : 1 ≤ ml) (hle : ml ≤ maxT) :
    pySliceStart ((ml : Int) - 1) maxT = ml - 1 := by
  unfold pySliceStart
  rw [if_neg (by omega)]
  have ht : ((ml : Int) - 1).toNat = ml - 1 := by omega
  rw [ht]
  exact Nat.min_eq_left (by omega)

theorem gateRow_length (ml maxT : Nat) : (gateRow ml maxT).length = maxT := by
  simp [gateRow]

theorem gateRow_getD {ml maxT j : Nat} (hj : j < maxT) (hml : 1 ≤ ml) (hle : ml ≤ maxT) :
    (gateRow ml maxT).getD j 0 = if ml - 1 ≤ j then (1 : Rat) else 0 := by
  unfold gateRow
  rw [getD_map_eq _ _ j (by simpa using hj) 0]
  rw [List.getD_eq_getElem _ _ (by simpa using hj), List.getElem_range]
  rw [pySliceStart_pred hml hle]

theorem padTo_length {l : List α} {n : Nat} (z : α) (h : l.length ≤ n) :
    (padTo l n z).length = n := by
  simp [padTo]; omega

theorem padTo_getD_right {l : List α} {n j : Nat} (z : α) (h : l.length ≤ j) :
    (padTo l n z).getD j z = z := by
  unfold padTo
  rw [List.getD_eq_getElem?_getD, List.getElem?_append_right h, List.getElem?_replicate]
  split <;> simp

theorem map_getD_range (l : List α) (d : α) :
    (List.range l.length).map (fun i => l.getD i d) = l := by
  induction l with
  | nil => simp
  | cons a t ih =>
    rw [List.length_cons, List.range_succ_eq_map, List.map_cons, List.map_map]
    have hfun : ((fun i => (a :: t).getD i d) ∘ Nat.succ) = fun i => t.getD i d := by
      funext i
      simp [List.getD]
    rw [hfun, ih]
    rfl

theorem range_map_textLen (batch : List CollateItem) :
    (List.range batch.length).map (textLenAt batch) = batch.map (fun it => it.text.length) := by
  have h := map_getD_range batch dIt
  have h2 : (List.range batch.length).map (textLenAt batch) =
      ((List.range batch.length).map (fun i => batch.getD i dIt)).map (fun it => it.text.length) := by
    rw [List.map_map]
    rfl
  rw [h2, h]

theorem head_eq_foldr_max {l : List Nat} (hpw : l.Pairwise (fun a b => b ≤ a)) (hne : l ≠ []) :
    l.getD 0 0 = l.foldr max 0 := by
  cases l with
  | nil => exact absurd rfl hne
  | cons a t =>
    rw [List.pairwise_cons] at hpw
    have h1 : t.foldr max 0 ≤ a := foldr_max_le hpw.1
    have : (a :: t).foldr max 0 = max a (t.foldr max 0) := rfl
    rw [this, Nat.max_eq_left h1]
    rfl

theorem getD_mem {l : List α} {i : Nat} (hi : i < l.length) (d : α) : l.getD i d ∈ l := by
  rw [List.getD_eq_getElem _ _ hi]
  exact List.getElem_mem _

theorem sortedIds_getD_lt {batch : List CollateItem} {i : Nat} (hi : i < batch.length) :
    (sortedIds batch).getD i 0 < batch.length := by
  have hi2 : i < (sortedIds batch).length := by rw [sortedIds_length]; exact hi
  exact sortedIds_lt (getD_mem hi2 0)

theorem collate_padded_text (n : Nat) (batch : List CollateItem) :
    (textMelCollate n batch).padded_text =
      (sortedIds batch).map (fun k => padTo (batch.getD k dIt).text (maxInputLen batch) 0) := rfl

theorem collate_input_lengths (n : Nat) (batch : List CollateItem) :
    (textMelCollate n batch).input_lengths = (sortedIds batch).map (textLenAt batch) := rfl

theorem collate_padded_mel (n : Nat) (batch : List CollateItem) :
    (textMelCollate n batch).padded_mel =
      (sortedIds batch).map
        (fun k => ((batch.getD k dIt).mel).map (fun row => padTo row (maxTargetLen n batch) 0)) := rfl

theorem collate_padded_gate (n : Nat) (batch : List CollateItem) :
    (textMelCollate n batch).padded_gate =
      (sortedIds batch).map
        (fun k => gateRow (melFrames (batch.getD k dIt).mel) (maxTargetLen n batch)) := rfl

theorem collate_output_lengths (n : Nat) (batch : List CollateItem) :
    (textMelCollate n batch).output_lengths =
      (sortedIds batch).map (fun k => melFrames (batch.getD k dIt).mel) := rfl

theorem collate_filenames (n : Nat) (batch : List CollateItem) :
    (textMelCollate n batch).filenames =
      (sortedIds batch).map (fun k => (batch.getD k dIt).fname) := rfl

/-- Claim C1: in every collated batch, row i of padded_gate is 1.0 at every
position from output_lengths[i] - 1 through max_target_len - 1 inclusive and
0.0 at every position strictly before output_lengths[i] - 1: the last real
frame is already marked as stop. -/
theorem collate_gate_marks_stop (n : Nat) (batch : List CollateItem)
    (hml : ∀ it ∈ batch, 1 ≤ melFrames it.mel)
    (i j : Nat) (hi : i < batch.length) (hj : j < maxTargetLen n batch) :
    ((textMelCollate n batch).padded_gate.getD i []).getD j 0 =
      if ((textMelCollate n batch).output_lengths.getD i 0) - 1 ≤ j then 1 else 0 := by
  have hi2 : i < (sortedIds batch).length := by rw [sortedIds_length]; exact hi
  have hk : (sortedIds batch).getD i 0 < batch.length := sortedIds_getD_lt hi
  have hitmem : batch.getD ((sortedIds batch).getD i 0) dIt ∈ batch := getD_mem hk dIt
  have h1 : 1 ≤ melFrames (batch.getD ((sortedIds batch).getD i 0) dIt).mel := hml _ hitmem
  have h2 : melFrames (batch.getD ((sortedIds batch).getD i 0) dIt).mel ≤ maxTargetLen n batch :=
    (melFrames_le_maxMelFrames hitmem).trans (maxMelFrames_le_maxTargetLen n batch)
  rw [collate_padded_gate, collate_output_lengths]
  rw [getD_map_eq _ _ i hi2 0, getD_map_eq _ _ i hi2 0]
  exact gateRow_getD hj h1 h2

theorem collate_gate_marks_stop_witness :
    (((textMelCollate 2 [({ text := [3, 4], mel := [[1, 2, 3]], fname := "f" } : CollateItem)]).padded_gate.getD 0 []).getD 3 0 =
      if ((textMelCollate 2 [({ text := [3, 4], mel := [[1, 2, 3]], fname := "f" } : CollateItem)]).output_lengths.getD 0 0) - 1 ≤ 3 then 1 else 0) :=
  collate_gate_marks_stop 2 _ (by decide) 0 3 (by decide) (by decide)

/-- Claim C3: input_lengths is sorted descending with head equal to the
maximum token length, and every output field is reordered by the same
descending-token-length permutation, each token row copied left-aligned and
zero-padded to max_input_len. -/
theorem collate_sorted_by_text_length (n : Nat) (batch : List CollateItem) (hne : batch ≠ []) :
    (∀ i j : Nat, i ≤ j → j < batch.length →
        (textMelCollate n batch).input_lengths.getD j 0 ≤
          (textMelCollate n batch).input_lengths.getD i 0) ∧
    (textMelCollate n batch).input_lengths.getD 0 0 =
      (batch.map (fun it => it.text.length)).foldr max 0 ∧
    ∃ ids : List Nat, ids.Perm (List.range batch.length) ∧
      (textMelCollate n batch).input_lengths = ids.map (textLenAt batch) ∧
      (textMelCollate n batch).padded_text =
        ids.map (fun k => padTo (batch.getD k dIt).text (maxInputLen batch) 0) ∧
      (textMelCollate n batch).padded_mel =
        ids.map (fun k => ((batch.getD k dIt).mel).map (fun row => padTo row (maxTargetLen n batch) 0)) ∧
      (textMelCollate n batch).padded_gate =
        ids.map (fun k => gateRow (melFrames (batch.getD k dIt).mel) (maxTargetLen n batch)) ∧
      (textMelCollate n batch).output_lengths =
        ids.map (fun k => melFrames (batch.getD k dIt).mel) ∧
      (textMelCollate n batch).filenames = ids.map (fun k => (batch.getD k dIt).fname) := by
  have hpw0 : (sortedIds batch).Pairwise
      (fun a b => textLenAt batch b ≤ textLenAt batch a) := sortIdx_pairwise _ _
  have hpw : ((sortedIds batch).map (textLenAt batch)).Pairwise (fun a b => b ≤ a) :=
    hpw0.map (textLenAt batch) (fun _ _ h => h)
  refine ⟨?_, ?_, ?_⟩
  · intro i j hij hj
    rw [collate_input_lengths]
    rcases Nat.eq_or_lt_of_le hij with he | hl
    · subst he; exact Nat.le_refl _
    · have hj2 : j < ((sortedIds batch).map (textLenAt batch)).length := by
        rw [List.length_map, sortedIds_length]; exact hj
      have hi2 : i < ((sortedIds batch).map (textLenAt batch)).length := Nat.lt_trans hl hj2
      rw [List.getD_eq_getElem _ _ hj2, List.getD_eq_getElem _ _ hi2]
      exact (List.pairwise_iff_getElem.mp hpw) i j hi2 hj2 hl
  · have hpos : 0 < batch.length := List.length_pos.mpr hne
    have hne2 : (sortedIds batch).map (textLenAt batch) ≠ [] := by
      apply List.length_pos.mp
      rw [List.length_map, sortedIds_length]
      exact hpos
    rw [collate_input_lengths, head_eq_foldr_max hpw hne2]
    have hperm := (sortedIds_perm_range batch).map (textLenAt batch)
    rw [range_map_textLen] at hperm
    exact foldr_max_perm hperm
  · exact ⟨sortedIds batch, sortedIds_perm_range batch, rfl, rfl, rfl, rfl, rfl, rfl⟩

theorem collate_sorted_by_text_length_witness :
    (textMelCollate 1 [({ text := [1, 1, 1, 1, 1], mel := [[1]], fname := "a" } : CollateItem),
        ({ text := [1, 1], mel := [[1]], fname := "b" } : CollateItem),
        ({ text := [1, 1, 1, 1, 1, 1, 1, 1], mel := [[1]], fname := "c" } : CollateItem)]).input_lengths.getD 0 0 = 8 := by
  have h := collate_sorted_by_text_length 1
    [({ text := [1, 1, 1, 1, 1], mel := [[1]], fname := "a" } : CollateItem),
      ({ text := [1, 1], mel := [[1]], fname := "b" } : CollateItem),
      ({ text := [1, 1, 1, 1, 1, 1, 1, 1], mel := [[1]], fname := "c" } : CollateItem)] (by decide)
  rw [h.2.1]
  decide

/-- Claim C2 is refuted as stated: the gate array is NOT zero beyond a
sample mel frames.  For the single sample with one mel frame and
n_frames_per_step = 2, max_target_len is 2 and the padding position 1
(at or beyond the real frame count 1) holds gate value 1, not 0. -/
theorem collate_gate_padding_not_zero :
    (textMelCollate 2 [({ text := [1], mel := [[5]], fname := "a" } : CollateItem)]).output_lengths.getD 0 0 = 1 ∧
    maxTargetLen 2 [({ text := [1], mel := [[5]], fname := "a" } : CollateItem)] = 2 ∧
    ¬ (((textMelCollate 2 [({ text := [1], mel := [[5]], fname := "a" } : CollateItem)]).padded_gate.getD 0 []).getD 1 0 = 0) := by
  decide

/-- Claim C2 (amended): max_target_len is the batch maximum mel frame count
rounded up to the next multiple of n_frames_per_step; padded_mel has
batch_size rows of n_mel channels of width max_target_len and is
zero-padded beyond each sample real frames; padded_gate has batch_size
rows of width max_target_len and holds 1.0 (not 0.0) at the padding
positions at or beyond each sample real frame count. -/
theorem collate_pad_alignment (n : Nat) (batch : List CollateItem) (hn : 0 < n)
    (hch : ∀ it ∈ batch, it.mel.length = (batch.headD dIt).mel.length)
    (hrect : ∀ it ∈ batch, ∀ row ∈ it.mel, row.length = melFrames it.mel)
    (hml : ∀ it ∈ batch, 1 ≤ melFrames it.mel) :
    maxTargetLen n batch % n = 0 ∧
    maxMelFrames batch ≤ maxTargetLen n batch ∧
    maxTargetLen n batch < maxMelFrames batch + n ∧
    (textMelCollate n batch).padded_mel.length = batch.length ∧
    (∀ pm ∈ (textMelCollate n batch).padded_mel,
        pm.length = (batch.headD dIt).mel.length ∧
        ∀ row ∈ pm, row.length = maxTargetLen n batch) ∧
    (textMelCollate n batch).padded_gate.length = batch.length ∧
    (∀ g ∈ (textMelCollate n batch).padded_gate, g.length = maxTargetLen n batch) ∧
    (∀ i c j : Nat, i < batch.length →
        (textMelCollate n batch).output_lengths.getD i 0 ≤ j → j < maxTargetLen n batch →
        (((textMelCollate n batch).padded_mel.getD i []).getD c []).getD j 0 = 0) ∧
    (∀ i j : Nat, i < batch.length →
        (textMelCollate n batch).output_lengths.getD i 0 ≤ j → j < maxTargetLen n batch →
        ((textMelCollate n batch).padded_gate.getD i []).getD j 0 = 1) := by
  refine ⟨maxTargetLen_mod n batch hn, maxMelFrames_le_maxTargetLen n batch,
    maxTargetLen_lt n batch hn, ?_, ?_, ?_, ?_, ?_, ?_⟩
  · rw [collate_padded_mel, List.length_map, sortedIds_length]
  · intro pm hpm
    rw [collate_padded_mel] at hpm
    obtain ⟨k, hk, hpmeq⟩ := List.mem_map.mp hpm
    have hkb : k < batch.length := sortedIds_lt hk
    have hmem : batch.getD k dIt ∈ batch := getD_mem hkb dIt
    constructor
    · rw [← hpmeq, List.length_map]
      exact hch _ hmem
    · intro row hrow
      rw [← hpmeq] at hrow
      obtain ⟨r, hr, hreq⟩ := List.mem_map.mp hrow
      rw [← hreq]
      apply padTo_length
      calc r.length = melFrames (batch.getD k dIt).mel := hrect _ hmem r hr
        _ ≤ maxMelFrames batch := melFrames_le_maxMelFrames hmem
        _ ≤ maxTargetLen n batch := maxMelFrames_le_maxTargetLen n batch
  · rw [collate_padded_gate, List.length_map, sortedIds_length]
  · intro g hg
    rw [collate_padded_gate] at hg
    obtain ⟨k, hk, hgeq⟩ := List.mem_map.mp hg
    rw [← hgeq]
    exact gateRow_length _ _
  · intro i c j hi hout hj
    have hi2 : i < (sortedIds batch).length := by rw [sortedIds_length]; exact hi
    have hk : (sortedIds batch).getD i 0 < batch.length := sortedIds_getD_lt hi
    have hmem : batch.getD ((sortedIds batch).getD i 0) dIt ∈ batch := getD_mem hk dIt
    rw [collate_output_lengths, getD_map_eq _ _ i hi2 0] at hout
    rw [collate_padded_mel, getD_map_eq _ _ i hi2 0]
    by_cases hc : c < (batch.getD ((sortedIds batch).getD i 0) dIt).mel.length
    · rw [getD_map_eq _ _ c hc []]
      apply padTo_getD_right
      rw [hrect _ hmem _ (getD_mem hc [])]
      exact hout
    · have hnil : ((batch.getD ((sortedIds batch).getD i 0) dIt).mel.map
          (fun row => padTo row (maxTargetLen n batch) 0)).getD c [] = [] :=
        List.getD_eq_default _ _ (by rw [List.length_map]; omega)
      rw [hnil]
      rfl
  · intro i j hi hout hj
    have hi2 : i < (sortedIds batch).length := by rw [sortedIds_length]; exact hi
    have hk : (sortedIds batch).getD i 0 < batch.length := sortedIds_getD_lt hi
    have hmem : batch.getD ((sortedIds batch).getD i 0) dIt ∈ batch := getD_mem hk dIt
    have h1 : 1 ≤ melFrames (batch.getD ((sortedIds batch).getD i 0) dIt).mel := hml _ hmem
    have h2 : melFrames (batch.getD ((sortedIds batch).getD i 0) dIt).mel ≤ maxTargetLen n batch :=
      (melFrames_le_maxMelFrames hmem).trans (maxMelFrames_le_maxTargetLen n batch)
    rw [collate_output_lengths, getD_map_eq _ _ i hi2 0] at hout
    rw [collate_padded_gate, getD_map_eq _ _ i hi2 0, gateRow_getD hj h1 h2]
    rw [if_pos (by omega)]

theorem collate_pad_alignment_witness :
    maxTargetLen 4 [({ text := [1], mel := [[5, 6]], fname := "a" } : CollateItem)] % 4 = 0 :=
  (collate_pad_alignment 4 [({ text := [1], mel := [[5, 6]], fname := "a" } : CollateItem)]
    (by decide) (by decide) (by decide) (by decide)).1

/- Part 2: the manifest loader load_mozilla_cv (source lines 18-22) and the
   construction checks of TextMelLoader.__init__ (source lines 31-59).
   Lines of the manifest file are modelled as lists of characters; the
   Python string operations strip and split are embedded directly. -/

/-- Python whitespace, as stripped by str.strip(). -/
def isPySpace (c : Char) : Bool :=
  c = ' ' || c = '\t' || c = '\n' || c = '\r' || c = '\x0b' || c = '\x0c'

/-- Python str.strip(): remove leading and trailing whitespace. -/
def pyStrip (l : List Char) : List Char :=
  ((l.dropWhile isPySpace).reverse.dropWhile isPySpace).reverse

/-- Python str.split(sep) for a one-character separator: split at every
occurrence, keeping empty fields. -/
def splitOnChar (c : Char) : List Char → List (List Char)
  | [] => [[]]
  | x :: xs =>
    if x = c then [] :: splitOnChar c xs
    else
      match splitOnChar c xs with
      | [] => [[x]]
      | h :: t => (x :: h) :: t

/-- load_mozilla_cv (source lines 18-22): strip and tab-split every line,
discard the first row as the header, and map each remaining row to the
pair (clips/ prepended to column 1, column 2). -/
def loadMozillaCV (lines : List (List Char)) : List (List Char × List Char) :=
  ((lines.map (fun l => splitOnChar '\t' (pyStrip l))).drop 1).map
    (fun comp => ("clips/".data ++ comp.getD 1 [], comp.getD 2 []))

/-- Step of the linear congruential generator standing in for the external
Mersenne Twister behind the random module: the claims proved here depend
only on the generator being a deterministic function of its state. -/
def lcgStep (st : Nat) : Nat := (st * 1103515245 + 12345) % 2147483648

/-- Draw a value below n from the generator, returning the value and the
advanced state. -/
def randBelow (st n : Nat) : Nat × Nat :=
  (if n = 0 then 0 else lcgStep st % n, lcgStep st)

/-- Exchange the elements at positions i and j. -/
def listSwap (l : List α) (i j : Nat) : List α :=
  match l[i]?, l[j]? with
  | some x, some y => (l.set i y).set j x
  | _, _ => l

/-- The Fisher-Yates loop of random.shuffle: for i from len - 1 down to 1,
swap position i with a drawn position below i + 1. -/
def fyAux : Nat → List α → Nat → List α × Nat
  | st, a, 0 => (a, st)
  | st, a, i + 1 => fyAux (randBelow st (i + 2)).2 (listSwap a (i + 1) (randBelow st (i + 2)).1) i

/-- random.shuffle on a list, threading the generator state. -/
def pyShuffle (st : Nat) (l : List α) : List α × Nat := fyAux st l (l.length - 1)

/-- random.seed(s): the generator state is replaced by a function of the
seed alone; the previous global state g is discarded. -/
def seedFn (s : Nat) (_g : Nat) : Nat := s

/-- The configuration options read by TextMelLoader.__init__
(source lines 31-59). -/
structure TMHParams where
  fetcherMode : String
  maxWavValue : Rat
  samplingRate : Nat
  inputSampleRate : Nat
  loadMelFromDisk : Bool
  returnWavs : Bool
  seed : Nat
  maxMelLen : Option Nat
  maxTextLen : Option Nat
  needsCollate : Bool
deriving DecidableEq

/-- Construction failures: NotImplementedError for an unknown fetcher mode
(the ManifestFormatError of the design), and the two assertion failures
(the ConfigError of the design). -/
inductive InitError where
  | manifestFormatError
  | configError
deriving DecidableEq

/-- The state TextMelLoader construction leaves behind that the claims
need: the shuffled manifest entries and the generator state after the
shuffle. -/
structure LoaderState where
  entries : List (List Char × List Char)
  rstate : Nat
deriving DecidableEq

/-- Fetcher dispatch of __init__ (source lines 33-39); the lj parser
load_filepaths_and_text is an external collaborator passed as ljParse. -/
def fetchEntries (ljParse : List (List Char) → List (List Char × List Char))
    (mode : String) (lines : List (List Char)) : Option (List (List Char × List Char)) :=
  if mode = "lj" then some (ljParse lines)
  else if mode = "mozilla_cv" then some (loadMozillaCV lines)
  else none

/-- TextMelLoader.__init__ (source lines 31-59): dispatch the fetcher,
assert that load_mel_from_disk and return_wavs are not both set, reseed the
global generator from the configured seed and shuffle the entries, then
assert that both length caps are present whenever needs_collate is false.
g is the global generator state before construction. -/
def textMelLoaderInit (g : Nat) (ljParse : List (List Char) → List (List Char × List Char))
    (h : TMHParams) (lines : List (List Char)) : Except InitError LoaderState :=
  match fetchEntries ljParse h.fetcherMode lines with
  | none => .error .manifestFormatError
  | some entries =>
    if h.loadMelFromDisk && h.returnWavs then .error .configError
    else
      if !h.needsCollate && (h.maxMelLen.isNone || h.maxTextLen.isNone) then .error .configError
      else .ok ⟨(pyShuffle (seedFn h.seed g) entries).1, (pyShuffle (seedFn h.seed g) entries).2⟩

/-- Claim C7: every mozilla_cv manifest is parsed by tab-splitting each
line, discarding the header row, and producing for row i + 1 the entry
whose audio path is clips/ prepended to column 1 and whose transcript is
column 2, in row order. -/
theorem mozilla_cv_rows (lines : List (List Char)) :
    (loadMozillaCV lines).length = lines.length - 1 ∧
    ∀ i : Nat, i + 1 < lines.length →
      (loadMozillaCV lines).getD i ([], []) =
        ("clips/".data ++ ((splitOnChar '\t' (pyStrip (lines.getD (i + 1) []))).getD 1 []),
          (splitOnChar '\t' (pyStrip (lines.getD (i + 1) []))).getD 2 []) := by
  constructor
  · simp [loadMozillaCV]
  · intro i hi
    have h1 : (1 : Nat) + i < (lines.map (fun l => splitOnChar '\t' (pyStrip l))).length := by
      rw [List.length_map]; omega
    have h2 : i + 1 < lines.length := hi
    unfold loadMozillaCV
    rw [List.getD_eq_getElem?_getD, List.getElem?_map, List.getElem?_drop,
        List.getElem?_eq_getElem h1]
    rw [List.getD_eq_getElem _ _ h2]
    simp [Nat.add_comm]

theorem mozilla_cv_rows_witness :
    (loadMozillaCV ["id\tpath\tsentence".data, "x1\tcommon.mp3\tHi there\n".data]).getD 0 ([], []) =
      ("clips/common.mp3".data, "Hi there".data) := by
  have h := (mozilla_cv_rows ["id\tpath\tsentence".data, "x1\tcommon.mp3\tHi there\n".data]).2 0
    (by decide)
  rw [h]
  decide

/-- Claim C8: construction is a deterministic function of the seed and the
manifest contents; the global generator state before construction (which is
all that differs between two otherwise identical constructions) does not
influence the shuffled entry list. -/
theorem loader_shuffle_deterministic (g g2 : Nat)
    (ljParse : List (List Char) → List (List Char × List Char))
    (h : TMHParams) (lines : List (List Char)) :
    textMelLoaderInit g ljParse h lines = textMelLoaderInit g2 ljParse h lines := rfl

/-- Claim C6: with a recognised fetcher mode, construction fails with
ConfigError exactly when load_mel_from_disk and return_wavs are both set,
or needs_collate is false while either length cap is unset; in every other
configuration it succeeds. -/
theorem init_config_error_iff (g : Nat)
    (ljParse : List (List Char) → List (List Char × List Char))
    (h : TMHParams) (lines : List (List Char))
    (hmode : h.fetcherMode = "lj" ∨ h.fetcherMode = "mozilla_cv") :
    (textMelLoaderInit g ljParse h lines = .error .configError ↔
      ((h.loadMelFromDisk = true ∧ h.returnWavs = true) ∨
        (h.needsCollate = false ∧ (h.maxMelLen = none ∨ h.maxTextLen = none)))) ∧
    (¬ ((h.loadMelFromDisk = true ∧ h.returnWavs = true) ∨
        (h.needsCollate = false ∧ (h.maxMelLen = none ∨ h.maxTextLen = none))) →
      ∃ st : LoaderState, textMelLoaderInit g ljParse h lines = .ok st) := by
  obtain ⟨entries, he⟩ : ∃ e, fetchEntries ljParse h.fetcherMode lines = some e := by
    rcases hmode with hm | hm
    · exact ⟨ljParse lines, by simp [fetchEntries, hm]⟩
    · exact ⟨loadMozillaCV lines, by simp [fetchEntries, hm]⟩
  have key : textMelLoaderInit g ljParse h lines =
      (if h.loadMelFromDisk && h.returnWavs then .error .configError
       else if !h.needsCollate && (h.maxMelLen.isNone || h.maxTextLen.isNone) then
         .error .configError
       else .ok ⟨(pyShuffle (seedFn h.seed g) entries).1, (pyShuffle (seedFn h.seed g) entries).2⟩) := by
    unfold textMelLoaderInit
    rw [he]
  have hc1 : (h.loadMelFromDisk && h.returnWavs) = true ↔
      (h.loadMelFromDisk = true ∧ h.returnWavs = true) := by
    simp [Bool.and_eq_true]
  have hc2 : (!h.needsCollate && (h.maxMelLen.isNone || h.maxTextLen.isNone)) = true ↔
      (h.needsCollate = false ∧ (h.maxMelLen = none ∨ h.maxTextLen = none)) := by
    simp [Bool.and_eq_true, Bool.or_eq_true, Option.isNone_iff_eq_none]
  rw [key]
  constructor
  · by_cases h1 : (h.loadMelFromDisk && h.returnWavs) = true
    · rw [if_pos h1]
      exact ⟨fun _ => Or.inl (hc1.mp h1), fun _ => rfl⟩
    · rw [if_neg h1]
      by_cases h2 : (!h.needsCollate && (h.maxMelLen.isNone || h.maxTextLen.isNone)) = true
      · rw [if_pos h2]
        exact ⟨fun _ => Or.inr (hc2.mp h2), fun _ => rfl⟩
      · rw [if_neg h2]
        constructor
        · intro hcontra
          exact absurd hcontra (by simp)
        · intro hor
          rcases hor with hor | hor
          · exact absurd (hc1.mpr hor) h1
          · exact absurd (hc2.mpr hor) h2
  · intro hnot
    have h1 : ¬ (h.loadMelFromDisk && h.returnWavs) = true := fun hx => hnot (Or.inl (hc1.mp hx))
    have h2 : ¬ (!h.needsCollate && (h.maxMelLen.isNone || h.maxTextLen.isNone)) = true :=
      fun hx => hnot (Or.inr (hc2.mp hx))
    rw [if_neg h1, if_neg h2]
    exact ⟨_, rfl⟩

theorem init_config_error_iff_witness :
    textMelLoaderInit 0 (fun _ => [])
      ({ fetcherMode := "lj", maxWavValue := 32768, samplingRate := 22050,
         inputSampleRate := 22050, loadMelFromDisk := true, returnWavs := true,
         seed := 0, maxMelLen := none, maxTextLen := none, needsCollate := true } : TMHParams)
      [] = .error .configError :=
  (init_config_error_iff 0 (fun _ => [])
      ({ fetcherMode := "lj", maxWavValue := 32768, samplingRate := 22050,
         inputSampleRate := 22050, loadMelFromDisk := true, returnWavs := true,
         seed := 0, maxMelLen := none, maxTextLen := none, needsCollate := true } : TMHParams)
      [] (Or.inl rfl)).1.mpr (Or.inl ⟨rfl, rfl⟩)

/- Part 3: the raw-audio branch of TextMelLoader.get_mel (source lines
   69-95).  Waveform samples are rationals; the two torch area
   interpolations and the STFT are external collaborators passed as
   function parameters; the low-sample-rate warning print at line 80 has no
   control effect and is not modelled, while the range-error diagnostic at
   line 84 is returned as the Bool component. -/

/-- audio.squeeze().clip(-1, 1) followed by (x + 1) / 2 (source line 82). -/
def clipRemap (x : Rat) : Rat := (max (-1) (min 1 x) + 1) / 2

/-- The waveform at the range check point: normalised by max_wav_value for
wav input, then resampled to input_sample_rate, clipped and remapped, when
the native rate differs (source lines 71-82). -/
def resampledInput (h : TMHParams) (interp1 : List Rat → List Rat) (audio : List Rat)
    (nativeRate : Nat) (isWav : Bool) : List Rat :=
  if nativeRate ≠ h.inputSampleRate then
    (interp1 (if isWav then audio.map (fun x => x / h.maxWavValue) else audio)).map clipRemap
  else (if isWav then audio.map (fun x => x / h.maxWavValue) else audio)

/-- The waveform after all resampling: the second area interpolation is
applied when input_sample_rate differs from sampling_rate (source lines
88-90). -/
def resampledFull (h : TMHParams) (interp1 interp2 : List Rat → List Rat) (audio : List Rat)
    (nativeRate : Nat) (isWav : Bool) : List Rat :=
  if h.inputSampleRate ≠ h.samplingRate then
    interp2 (resampledInput h interp1 audio nativeRate isWav)
  else resampledInput h interp1 audio nativeRate isWav

/-- get_mel with load_mel_from_disk false (source lines 70-95): first
component is the produced features (none on the out-of-range soft failure),
second component records whether the range diagnostic was printed. -/
def getMelRaw (h : TMHParams) (interp1 interp2 : List Rat → List Rat)
    (stft : List Rat → List (List Rat)) (audio : List Rat) (nativeRate : Nat)
    (isWav : Bool) : Option (List (List Rat)) × Bool :=
  if (resampledInput h interp1 audio nativeRate isWav).any
      (fun x => decide (x < -1) || decide (1 < x)) then (none, true)
  else
    (some (if h.returnWavs then [resampledFull h interp1 interp2 audio nativeRate isWav]
           else stft (resampledFull h interp1 interp2 audio nativeRate isWav)), false)

/-- A minimal concrete configuration used to evaluate the embedded
functions at concrete inputs. -/
def cfgUnit : TMHParams :=
  { fetcherMode := "lj"
    maxWavValue := 1
    samplingRate := 1
    inputSampleRate := 1
    loadMelFromDisk := false
    returnWavs := false
    seed := 0
    maxMelLen := none
    maxTextLen := none
    needsCollate := true }

theorem clipRemap_mem (y : Rat) : 0 ≤ clipRemap y ∧ clipRemap y ≤ 1 := by
  unfold clipRemap
  have h1 : -1 ≤ max (-1) (min 1 y) := le_max_left _ _
  have h2 : max (-1) (min 1 y) ≤ 1 := max_le (by norm_num) (min_le_left _ _)
  constructor <;> linarith

/-- Claim C5: in raw-audio mode the extractor returns null (with a
diagnostic) exactly when the waveform at the range check holds a value
outside [-1, 1]; otherwise it proceeds, and whenever it proceeds the
waveform after all resampling lies within [-1, 1], granted that area
interpolation maps waveforms within [-1, 1] to waveforms within [-1, 1]. -/
theorem get_mel_range_soft_failure (h : TMHParams)
    (interp1 interp2 : List Rat → List Rat) (stft : List Rat → List (List Rat))
    (audio : List Rat) (nativeRate : Nat) (isWav : Bool)
    (hint2 : ∀ l : List Rat, (∀ x ∈ l, -1 ≤ x ∧ x ≤ 1) → ∀ x ∈ interp2 l, -1 ≤ x ∧ x ≤ 1) :
    ((getMelRaw h interp1 interp2 stft audio nativeRate isWav).1 = none ↔
      ∃ x ∈ resampledInput h interp1 audio nativeRate isWav, x < -1 ∨ 1 < x) ∧
    ((getMelRaw h interp1 interp2 stft audio nativeRate isWav).2 = true ↔
      (getMelRaw h interp1 interp2 stft audio nativeRate isWav).1 = none) ∧
    ((getMelRaw h interp1 interp2 stft audio nativeRate isWav).1 ≠ none →
      ∀ x ∈ resampledFull h interp1 interp2 audio nativeRate isWav, -1 ≤ x ∧ x ≤ 1) := by
  by_cases hany : (resampledInput h interp1 audio nativeRate isWav).any
      (fun x => decide (x < -1) || decide (1 < x)) = true
  · have hg : getMelRaw h interp1 interp2 stft audio nativeRate isWav = (none, true) := by
      unfold getMelRaw
      rw [if_pos hany]
    rw [hg]
    refine ⟨⟨fun _ => ?_, fun _ => rfl⟩, by simp, fun hc => absurd rfl hc⟩
    obtain ⟨x, hx, hp⟩ := List.any_eq_true.mp hany
    exact ⟨x, hx, by simpa using hp⟩
  · have hall : ∀ x ∈ resampledInput h interp1 audio nativeRate isWav, -1 ≤ x ∧ x ≤ 1 := by
      intro x hx
      have hp : ¬ ((decide (x < -1) || decide (1 < x)) = true) := by
        intro hc
        exact hany (List.any_eq_true.mpr ⟨x, hx, hc⟩)
      refine ⟨le_of_not_lt fun hc => hp ?_, le_of_not_lt fun hc => hp ?_⟩ <;> simp [hc]
    have hg : getMelRaw h interp1 interp2 stft audio nativeRate isWav =
        (some (if h.returnWavs then [resampledFull h interp1 interp2 audio nativeRate isWav]
               else stft (resampledFull h interp1 interp2 audio nativeRate isWav)), false) := by
      unfold getMelRaw
      rw [if_neg hany]
    rw [hg]
    refine ⟨⟨fun hc => absurd hc (by simp), fun hex => ?_⟩, by simp, fun _ => ?_⟩
    · obtain ⟨x, hx, hp⟩ := hex
      obtain ⟨ha, hb⟩ := hall x hx
      rcases hp with hp | hp <;> linarith
    · intro x hx
      unfold resampledFull at hx
      by_cases hr : h.inputSampleRate ≠ h.samplingRate
      · rw [if_pos hr] at hx
        exact hint2 _ hall x hx
      · rw [if_neg hr] at hx
        exact hall x hx

theorem get_mel_range_soft_failure_witness :
    (getMelRaw cfgUnit id id (fun _ => []) [2] 1 false).1 = none :=
  (get_mel_range_soft_failure cfgUnit id id (fun _ => []) [2] 1 false
      (fun _ hl x hx => hl x hx)).1.mpr ⟨2, by decide, by decide⟩

/-- Claim C10: when the native rate differs from input_sample_rate, the
resampled waveform is clipped and remapped into [0, 1], so the
out-of-range check can never trigger the null soft failure on that path. -/
theorem resample_clip_remap_in_range (h : TMHParams)
    (interp1 interp2 : List Rat → List Rat) (stft : List Rat → List (List Rat))
    (audio : List Rat) (nativeRate : Nat) (isWav : Bool)
    (hrate : nativeRate ≠ h.inputSampleRate) :
    (∀ x ∈ resampledInput h interp1 audio nativeRate isWav, 0 ≤ x ∧ x ≤ 1) ∧
    (getMelRaw h interp1 interp2 stft audio nativeRate isWav).1 ≠ none ∧
    (getMelRaw h interp1 interp2 stft audio nativeRate isWav).2 = false := by
  have hin : ∀ x ∈ resampledInput h interp1 audio nativeRate isWav, 0 ≤ x ∧ x ≤ 1 := by
    intro x hx
    unfold resampledInput at hx
    rw [if_pos hrate] at hx
    obtain ⟨y, _, hxy⟩ := List.mem_map.mp hx
    rw [← hxy]
    exact clipRemap_mem y
  have hany : (resampledInput h interp1 audio nativeRate isWav).any
      (fun x => decide (x < -1) || decide (1 < x)) = false := by
    apply List.any_eq_false.mpr
    intro x hx
    obtain ⟨h0, h1⟩ := hin x hx
    intro hc
    simp only [Bool.or_eq_true, decide_eq_true_eq] at hc
    rcases hc with hc | hc <;> linarith
  have hg : getMelRaw h interp1 interp2 stft audio nativeRate isWav =
      (some (if h.returnWavs then [resampledFull h interp1 interp2 audio nativeRate isWav]
             else stft (resampledFull h interp1 interp2 audio nativeRate isWav)), false) := by
    unfold getMelRaw
    rw [if_neg (by rw [hany]; exact Bool.false_ne_true)]
  rw [hg]
  exact ⟨hin, by simp, rfl⟩

theorem resample_clip_remap_in_range_witness :
    (getMelRaw cfgUnit id id (fun _ => []) [5] 2 false).2 = false :=
  (resample_clip_remap_in_range cfgUnit id id (fun _ => []) [5] 2 false (by decide)).2.2

/- Part 4: TextMelLoader.__getitem__ (source lines 108-132).  The dataset
   is modelled by the list of per-index results of get_mel_text_pair
   (token sequence, optional mel features, path); the successive values
   drawn by random.randint(0, len - 1) are an explicit list, one entry per
   retry the execution performs. -/

/-- The result of get_mel_text_pair for one index: tokenized text, mel
features (none on the get_mel soft failure), and the manifest path. -/
structure RawItem where
  text : List Int
  mel : Option (List (List Rat))
  path : String
deriving DecidableEq

instance : Inhabited RawItem := ⟨⟨[], none, ""⟩⟩

/-- Default item for out-of-range list reads (never reached in bounds). -/
def dRaw : RawItem := ⟨[], none, ""⟩

/-- The validity test of __getitem__ (source lines 110-112): a sample is
invalid when the mel is null, or a configured cap is exceeded. -/
def isValidItem (cfg : TMHParams) (it : RawItem) : Bool :=
  match it.mel with
  | none => false
  | some m =>
    !((match cfg.maxMelLen with
       | some mm => decide (mm < melFrames m)
       | none => false) ||
      (match cfg.maxTextLen with
       | some mt => decide (mt < it.text.length)
       | none => false))

/-- The diagnostic printed at source lines 113-114 (index, mel frame count,
token count, path), emitted only when the mel features are non-null. -/
def itemLog (i : Nat) (it : RawItem) : List (Nat × Nat × Nat × String) :=
  match it.mel with
  | some m => [(i, melFrames m, it.text.length, it.path)]
  | none => []

/-- A value of the per-sample record dictionary. -/
inductive DictVal where
  | ints : List Int → DictVal
  | mels : List (List Rat) → DictVal
  | num : Nat → DictVal
  | str : String → DictVal
deriving DecidableEq

/-- The fixed-size record returned when needs_collate is false (source
lines 120-131): mel and text are padded to the configured caps when
shorter, and the two length fields keep the pre-padding counts. -/
def noCollateRecord (cfg : TMHParams) (t : List Int) (m : List (List Rat)) (p : String) :
    List (String × DictVal) :=
  [("padded_text", .ints (if t.length ≠ cfg.maxTextLen.getD 0 then
                            padTo t (cfg.maxTextLen.getD 0) 0 else t)),
   ("input_lengths", .num t.length),
   ("padded_mel", .mels (if melFrames m ≠ cfg.maxMelLen.getD 0 then
                           m.map (fun row => padTo row (cfg.maxMelLen.getD 0) 0) else m)),
   ("output_lengths", .num (melFrames m)),
   ("filenames", .str p)]

/-- What __getitem__ returns for a valid sample: the (text, mel, path)
triple when needs_collate is true, or the fixed-size record. -/
inductive GetItemOut where
  | triple : List Int → List (List Rat) → String → GetItemOut
  | record : List (String × DictVal) → GetItemOut
deriving DecidableEq

/-- The return value of __getitem__ for a valid sample (source lines
120-132). -/
def getItemCore (cfg : TMHParams) (it : RawItem) : GetItemOut :=
  if cfg.needsCollate then .triple it.text (it.mel.getD []) it.path
  else .record (noCollateRecord cfg it.text (it.mel.getD []) it.path)

/-- TextMelLoader.__getitem__ (source lines 108-132).  picks is the list of
successive random.randint draws the execution consumes, one per retry; the
first component is none when the draws are exhausted before reaching a
valid sample (the Python recursion would still be running), the second
collects the printed diagnostics in order. -/
def getItem (ds : List RawItem) (cfg : TMHParams) :
    Nat → List Nat → Option GetItemOut × List (Nat × Nat × Nat × String)
  | idx, [] =>
    if idx < ds.length then
      if isValidItem cfg (ds.getD idx dRaw) then (some (getItemCore cfg (ds.getD idx dRaw)), [])
      else (none, itemLog idx (ds.getD idx dRaw))
    else (none, [])
  | idx, p :: rest =>
    if idx < ds.length then
      if isValidItem cfg (ds.getD idx dRaw) then (some (getItemCore cfg (ds.getD idx dRaw)), [])
      else ((getItem ds cfg p rest).1, itemLog idx (ds.getD idx dRaw) ++ (getItem ds cfg p rest).2)
    else (none, [])

theorem getItem_valid {ds : List RawItem} {cfg : TMHParams} {idx : Nat} (picks : List Nat)
    (hidx : idx < ds.length) (hval : isValidItem cfg (ds.getD idx dRaw) = true) :
    getItem ds cfg idx picks = (some (getItemCore cfg (ds.getD idx dRaw)), []) := by
  cases picks <;> (simp only [getItem]; rw [if_pos hidx, if_pos hval])

theorem getItem_sound (ds : List RawItem) (cfg : TMHParams) :
    ∀ (picks : List Nat) (idx : Nat) (o : GetItemOut) (logs : List (Nat × Nat × Nat × String)),
      getItem ds cfg idx picks = (some o, logs) →
      ∃ k, k < ds.length ∧ isValidItem cfg (ds.getD k dRaw) = true ∧
        o = getItemCore cfg (ds.getD k dRaw) := by
  intro picks
  induction picks with
  | nil =>
    intro idx o logs heq
    simp only [getItem] at heq
    by_cases h1 : idx < ds.length
    · rw [if_pos h1] at heq
      by_cases h2 : isValidItem cfg (ds.getD idx dRaw) = true
      · rw [if_pos h2] at heq
        rw [Prod.mk.injEq] at heq
        exact ⟨idx, h1, h2, (Option.some.injEq _ _).mp heq.1 |>.symm⟩
      · rw [if_neg h2] at heq
        simp at heq
    · rw [if_neg h1] at heq
      simp at heq
  | cons p rest ih =>
    intro idx o logs heq
    simp only [getItem] at heq
    by_cases h1 : idx < ds.length
    · rw [if_pos h1] at heq
      by_cases h2 : isValidItem cfg (ds.getD idx dRaw) = true
      · rw [if_pos h2] at heq
        rw [Prod.mk.injEq] at heq
        exact ⟨idx, h1, h2, (Option.some.injEq _ _).mp heq.1 |>.symm⟩
      · rw [if_neg h2] at heq
        rw [Prod.mk.injEq] at heq
        exact ih p o (getItem ds cfg p rest).2 (by rw [← heq.1])
    · rw [if_neg h1] at heq
      simp at heq

/-- The configuration and dataset of the C4 scenario: index 0 is invalid
(null features), index 1 is valid. -/
def cfgA : TMHParams :=
  { fetcherMode := "lj"
    maxWavValue := 1
    samplingRate := 1
    inputSampleRate := 1
    loadMelFromDisk := false
    returnWavs := false
    seed := 0
    maxMelLen := none
    maxTextLen := none
    needsCollate := true }

def dsA : List RawItem := [⟨[1, 1, 1], none, "a"⟩, ⟨[1], some [[0]], "b"⟩]

/-- Claim C4 is refuted as stated: the retry draws
random.randint(0, len(self) - 1), whose range includes the current index,
so the refetched index need not be different; the execution of
getItem dsA cfgA 0 whose single draw is 0 revisits the invalid index 0 and
returns no sample even though index 1 holds a valid sample. -/
theorem getitem_retry_not_different :
    isValidItem cfgA (dsA.getD 1 dRaw) = true ∧
    (getItem dsA cfgA 0 [0]).1 = none := by decide

/-- Claim C4 (amended): on an invalid sample, dataset access logs a
diagnostic when features were non-null, then refetches a uniformly random
index drawn from the full index range, possibly the current index again;
every sample actually returned is valid, and a valid return is guaranteed
only when the draw sequence reaches a valid index, not merely when one
exists. -/
theorem getitem_retry_policy (ds : List RawItem) (cfg : TMHParams) (idx : Nat) :
    (∀ (picks : List Nat) (o : GetItemOut) (logs : List (Nat × Nat × Nat × String)),
        getItem ds cfg idx picks = (some o, logs) →
        ∃ k, k < ds.length ∧ isValidItem cfg (ds.getD k dRaw) = true ∧
          o = getItemCore cfg (ds.getD k dRaw)) ∧
    (∀ (p : Nat) (rest : List Nat), idx < ds.length →
        isValidItem cfg (ds.getD idx dRaw) = false →
        getItem ds cfg idx (p :: rest) =
          ((getItem ds cfg p rest).1,
            itemLog idx (ds.getD idx dRaw) ++ (getItem ds cfg p rest).2)) := by
  constructor
  · intro picks o logs heq
    exact getItem_sound ds cfg picks idx o logs heq
  · intro p rest h1 h2
    simp only [getItem]
    rw [if_pos h1, if_neg (by rw [h2]; exact Bool.false_ne_true)]

theorem getitem_retry_policy_witness :
    ∃ k, k < dsA.length ∧ isValidItem cfgA (dsA.getD k dRaw) = true ∧
      GetItemOut.triple [1] [[0]] "b" = getItemCore cfgA (dsA.getD k dRaw) :=
  (getitem_retry_policy dsA cfgA 0).1 [1] (GetItemOut.triple [1] [[0]] "b") [] (by decide)

/-- Claim C9: with needs_collate false, the record returned for a valid
sample carries exactly the keys padded_text, input_lengths, padded_mel,
output_lengths and filenames, with no padded_gate key, and the two length
fields hold the pre-padding token count and mel frame count. -/
theorem getitem_no_collate_record (ds : List RawItem) (cfg : TMHParams) (idx : Nat)
    (picks : List Nat) (m : List (List Rat))
    (hidx : idx < ds.length) (hcol : cfg.needsCollate = false)
    (hmel : (ds.getD idx dRaw).mel = some m)
    (hval : isValidItem cfg (ds.getD idx dRaw) = true) :
    (getItem ds cfg idx picks).1 =
      some (.record (noCollateRecord cfg (ds.getD idx dRaw).text m (ds.getD idx dRaw).path)) ∧
    (noCollateRecord cfg (ds.getD idx dRaw).text m (ds.getD idx dRaw).path).map Prod.fst =
      ["padded_text", "input_lengths", "padded_mel", "output_lengths", "filenames"] ∧
    "padded_gate" ∉
      (noCollateRecord cfg (ds.getD idx dRaw).text m (ds.getD idx dRaw).path).map Prod.fst ∧
    (noCollateRecord cfg (ds.getD idx dRaw).text m (ds.getD idx dRaw).path).lookup
      "input_lengths" = some (.num (ds.getD idx dRaw).text.length) ∧
    (noCollateRecord cfg (ds.getD idx dRaw).text m (ds.getD idx dRaw).path).lookup
      "output_lengths" = some (.num (melFrames m)) := by
  refine ⟨?_, rfl, ?_, rfl, rfl⟩
  · rw [getItem_valid picks hidx hval]
    unfold getItemCore
    rw [if_neg (by rw [hcol]; exact Bool.false_ne_true), hmel]
    rfl
  · show "padded_gate" ∉ ["padded_text", "input_lengths", "padded_mel", "output_lengths", "filenames"]
    decide

/-- The configuration and dataset of the C9 scenario: fixed-size record
mode with both caps set, one valid sample. -/
def cfgB : TMHParams :=
  { fetcherMode := "lj"
    maxWavValue := 1
    samplingRate := 1
    inputSampleRate := 1
    loadMelFromDisk := false
    returnWavs := false
    seed := 0
    maxMelLen := some 4
    maxTextLen := some 6
    needsCollate := false }

def dsB : List RawItem := [⟨[5, 6], some [[1, 2]], "w"⟩]

theorem getitem_no_collate_record_witness :
    (getItem dsB cfgB 0 []).1 =
      some (.record (noCollateRecord cfgB [5, 6] [[1, 2]] "w")) :=
  (getitem_no_collate_record dsB cfgB 0 [] [[1, 2]] (by decide) rfl (by decide) (by decide)).1

end NvTacotron
